import Mathlib

/-!
Shallow embedding of the echolite wire protocol (Rust crates `protocol` and the
server binary) and proofs of the specification's claims about it.

Modelling conventions:
* a byte stream is a `List Nat` whose elements are byte values (`< 256` where it
  matters; hypotheses state the bound when a proof needs it);
* Rust `u64` values are `Nat` with explicit `% 2^64` where the code can wrap;
* Rust `i64` values are `Int`; casts between `i64` and `u64` are made explicit
  via `i64_as_u64` (two's-complement bit pattern) and `toSigned`;
* readers are functions `List Nat → Except Error (α × List Nat)` returning the
  decoded value and the unconsumed rest of the stream; `Error.IoError` models a
  failed `read_u8`/`read_exact` (unexpected EOF);
* Rust `String` / `Vec<u8>` payloads are `List Nat`; UTF-8 validation performed
  by `String::from_utf8` is the executable `utf8Valid` below.
-/

namespace Echolite

/-- The protocol error enum (`protocol/src/lib.rs`, `enum Error`), restricted to
the variants reachable in this embedding. -/
inductive Error
  | IoError
  | Utf8Error
  | Varint
  | UnknownStatus (n : Nat)
  | UnknownCommand (n : Nat)
  | UnknownValue (n : Nat)
  | InvalidValuesLength (values columns : Nat)
deriving DecidableEq, Repr

/-- `WriteExt::write_len` (`protocol/src/ext.rs` lines 6-17): emit a `u64` as a
little-endian base-128 varint.  The Rust `while len >= 0x80` loop followed by a
final `write_u8(len as u8)` is expressed as recursion: each iteration emits the
low 7 bits with the continuation bit set and shifts right by 7. -/
def write_len (len : Nat) : List Nat :=
  if _h : len < 0x80 then [len]
  else (len &&& 0x7F ||| 0x80) :: write_len (len >>> 7)
termination_by len
decreasing_by
  rw [Nat.shiftRight_eq_div_pow]
  exact Nat.div_lt_self (by omega) (by norm_num)

/-- Rust `u64::checked_shl`: `none` iff the shift amount is ≥ 64; otherwise the
shifted value with bits above position 63 discarded. -/
def checked_shl (x shift : Nat) : Option Nat :=
  if 64 ≤ shift then none else some ((x <<< shift) % 2 ^ 64)

/-- Loop body of `ReadExt::read_len` (`protocol/src/ext.rs` lines 32-51),
with the accumulator `len` and the current `shift` made explicit. -/
def read_len_aux : List Nat → Nat → Nat → Except Error (Nat × List Nat)
  | [], _, _ => .error .IoError
  | byte :: rest, len, shift =>
    if 64 ≤ shift then .error .Varint
    else
      match checked_shl (byte &&& 0x7F) shift with
      | none => .error .Varint
      | some shifted =>
        let len := len ||| shifted
        if byte &&& 0x80 = 0 then .ok (len, rest)
        else read_len_aux rest len (shift + 7)

/-- `ReadExt::read_len`: decode a varint from the head of the stream. -/
def read_len (s : List Nat) : Except Error (Nat × List Nat) :=
  read_len_aux s 0 0

/-- `read_u8`: take one byte off the stream. -/
def read_u8 : List Nat → Except Error (Nat × List Nat)
  | [] => .error .IoError
  | b :: rest => .ok (b, rest)

/-- `read_exact`: take exactly `n` bytes off the stream. -/
def read_exact (n : Nat) (s : List Nat) : Except Error (List Nat × List Nat) :=
  if s.length < n then .error .IoError else .ok (s.take n, s.drop n)

/-- `WriteExt::write_bytes` (`protocol/src/ext.rs` lines 19-23). -/
def write_bytes (bytes : List Nat) : List Nat :=
  write_len bytes.length ++ bytes

/-- `ReadExt::read_bytes` (`protocol/src/ext.rs` lines 53-58). -/
def read_bytes (s : List Nat) : Except Error (List Nat × List Nat) :=
  match read_len s with
  | .error e => .error e
  | .ok (len, s) => read_exact len s

/-! ### i64 / u64 casts and the zig-zag transformation -/

/-- Rust `as u64` on an `i64` value: the two's-complement bit pattern. -/
def i64_as_u64 (v : Int) : Nat := (v % 2 ^ 64).toNat

/-- Rust `as i64` on a `u64` value: reinterpret the bit pattern as signed. -/
def toSigned (n : Nat) : Int := if n < 2 ^ 63 then (n : Int) else (n : Int) - 2 ^ 64

/-- Rust `v >> 63` on an `i64` (arithmetic shift): `-1` for negatives, `0`
otherwise, since `|v| < 2^63`. -/
def sar63 (v : Int) : Int := if v < 0 then -1 else 0

/-- The zig-zag encoder from the `Value::I64` negative branch of `write_values`
(`protocol/src/lib.rs` line 345): `((v << 1) ^ (v >> 63)) as u64`, expressed on
bit patterns (`v << 1` wraps modulo `2^64`; xor acts on the patterns). -/
def zigzag_encode (v : Int) : Nat :=
  (i64_as_u64 v * 2 % 2 ^ 64) ^^^ i64_as_u64 (sar63 v)

/-- The zig-zag decoder from the tag-2 branch of `read_values`
(`protocol/src/lib.rs` line 384): `((encoded >> 1) as i64) ^ -((encoded & 1) as i64)`.
`encoded >> 1` is a logical shift on `u64` (its pattern is below `2^63`, so the
`as i64` cast is the identity on patterns); the negation's pattern is
`i64_as_u64` of the negated low bit; the xor of the two `i64`s acts on the
patterns and the result is read back as signed. -/
def zigzag_decode (encoded : Nat) : Int :=
  toSigned ((encoded >>> 1) ^^^ i64_as_u64 (-((encoded &&& 1 : Nat) : Int)))

/-! ### Value codec (`protocol/src/lib.rs` lines 303-397) -/

/-- `enum Value`.  `F64` is represented by the 64-bit IEEE-754 bit pattern the
code serializes (`write_f64`/`read_f64` move the raw bytes). -/
inductive Value
  | Null
  | I64 (v : Int)
  | F64 (bits : Nat)
  | Bytes (v : List Nat)
  | Text (v : List Nat)
deriving DecidableEq, Repr

/-- Big-endian bytes of a `u64` bit pattern, as written by `write_f64`. -/
def write_f64 (bits : Nat) : List Nat :=
  [bits >>> 56 % 256, bits >>> 48 % 256, bits >>> 40 % 256, bits >>> 32 % 256,
   bits >>> 24 % 256, bits >>> 16 % 256, bits >>> 8 % 256, bits % 256]

/-- `read_f64`: read 8 bytes and assemble the big-endian 64-bit pattern. -/
def read_f64 (s : List Nat) : Except Error (Nat × List Nat) :=
  match read_exact 8 s with
  | .error e => .error e
  | .ok (b, s) => .ok (b.foldl (fun acc x => acc * 256 + x) 0, s)

/-- Body of the `for value in values` loop of `write_values`
(`protocol/src/lib.rs` lines 334-369): tag byte followed by the payload. -/
def write_value : Value → List Nat
  | .Null => [0]
  | .I64 v =>
    if 0 ≤ v then 1 :: write_len (i64_as_u64 v)
    else 2 :: write_len (zigzag_encode v)
  | .F64 bits => 3 :: write_f64 bits
  | .Bytes v => if v = [] then [4] else 5 :: write_bytes v
  | .Text v => if v = [] then [6] else 7 :: write_bytes v

/-- `write_values` (`protocol/src/lib.rs` lines 332-372): varint count followed
by each value's encoding. -/
def write_values (values : List Value) : List Nat :=
  write_len values.length ++ values.flatMap write_value

/-- Body of the `for _ in 0..len` loop of `read_values`
(`protocol/src/lib.rs` lines 377-395): tag dispatch. -/
def read_value (s : List Nat) : Except Error (Value × List Nat) :=
  match read_u8 s with
  | .error e => .error e
  | .ok (type_id, s) =>
    match type_id with
    | 0 => .ok (.Null, s)
    | 1 =>
      match read_len s with
      | .error e => .error e
      | .ok (n, s) => .ok (.I64 (toSigned n), s)
    | 2 =>
      match read_len s with
      | .error e => .error e
      | .ok (encoded, s) => .ok (.I64 (zigzag_decode encoded), s)
    | 3 =>
      match read_f64 s with
      | .error e => .error e
      | .ok (bits, s) => .ok (.F64 bits, s)
    | 4 => .ok (.Bytes [], s)
    | 5 =>
      match read_bytes s with
      | .error e => .error e
      | .ok (b, s) => .ok (.Bytes b, s)
    | 6 => .ok (.Text [], s)
    | 7 =>
      match read_bytes s with
      | .error e => .error e
      | .ok (b, s) => .ok (.Text b, s)
    | t => .error (.UnknownValue t)

/-- The counted loop of `read_values`. -/
def read_values_aux : Nat → List Nat → Except Error (List Value × List Nat)
  | 0, s => .ok ([], s)
  | n + 1, s =>
    match read_value s with
    | .error e => .error e
    | .ok (v, s) =>
      match read_values_aux n s with
      | .error e => .error e
      | .ok (vs, s) => .ok (v :: vs, s)

/-- `read_values` (`protocol/src/lib.rs` lines 374-397). -/
def read_values (s : List Nat) : Except Error (List Value × List Nat) :=
  match read_len s with
  | .error e => .error e
  | .ok (len, s) => read_values_aux len s

/-! ### Strings, columns and query frames -/

/-- UTF-8 validity of a byte sequence, as checked by Rust's
`String::from_utf8` (RFC 3629 table: disallows overlong forms, surrogates and
code points above U+10FFFF). -/
def utf8Valid : List Nat → Bool
  | [] => true
  | b :: rest =>
    if b < 0x80 then utf8Valid rest
    else if 0xC2 ≤ b ∧ b ≤ 0xDF then
      match rest with
      | c1 :: rest => (0x80 ≤ c1 && c1 ≤ 0xBF) && utf8Valid rest
      | _ => false
    else if b = 0xE0 then
      match rest with
      | c1 :: c2 :: rest =>
        (0xA0 ≤ c1 && c1 ≤ 0xBF) && ((0x80 ≤ c2 && c2 ≤ 0xBF) && utf8Valid rest)
      | _ => false
    else if (0xE1 ≤ b ∧ b ≤ 0xEC) ∨ b = 0xEE ∨ b = 0xEF then
      match rest with
      | c1 :: c2 :: rest =>
        (0x80 ≤ c1 && c1 ≤ 0xBF) && ((0x80 ≤ c2 && c2 ≤ 0xBF) && utf8Valid rest)
      | _ => false
    else if b = 0xED then
      match rest with
      | c1 :: c2 :: rest =>
        (0x80 ≤ c1 && c1 ≤ 0x9F) && ((0x80 ≤ c2 && c2 ≤ 0xBF) && utf8Valid rest)
      | _ => false
    else if b = 0xF0 then
      match rest with
      | c1 :: c2 :: c3 :: rest =>
        (0x90 ≤ c1 && c1 ≤ 0xBF) && ((0x80 ≤ c2 && c2 ≤ 0xBF) &&
          ((0x80 ≤ c3 && c3 ≤ 0xBF) && utf8Valid rest))
      | _ => false
    else if 0xF1 ≤ b ∧ b ≤ 0xF3 then
      match rest with
      | c1 :: c2 :: c3 :: rest =>
        (0x80 ≤ c1 && c1 ≤ 0xBF) && ((0x80 ≤ c2 && c2 ≤ 0xBF) &&
          ((0x80 ≤ c3 && c3 ≤ 0xBF) && utf8Valid rest))
      | _ => false
    else if b = 0xF4 then
      match rest with
      | c1 :: c2 :: c3 :: rest =>
        (0x80 ≤ c1 && c1 ≤ 0x8F) && ((0x80 ≤ c2 && c2 ≤ 0xBF) &&
          ((0x80 ≤ c3 && c3 ≤ 0xBF) && utf8Valid rest))
      | _ => false
    else false

/-- `WriteExt::write_string`: a Rust `String` is its UTF-8 byte vector, so
writing it is `write_bytes` of those bytes. -/
def write_string (val : List Nat) : List Nat := write_bytes val

/-- `ReadExt::read_string` (`protocol/src/ext.rs` lines 60-63): `read_bytes`
followed by `String::from_utf8` validation. -/
def read_string (s : List Nat) : Except Error (List Nat × List Nat) :=
  match read_bytes s with
  | .error e => .error e
  | .ok (buf, s) => if utf8Valid buf then .ok (buf, s) else .error .Utf8Error

/-- `struct Column` (`protocol/src/lib.rs` lines 297-301); the two `String`
fields are byte lists. -/
structure Column where
  name : List Nat
  datatype : List Nat
deriving DecidableEq, Repr

/-- Body of the write loop of `write_columns` (`protocol/src/lib.rs`
lines 312-319). -/
def write_column (c : Column) : List Nat :=
  write_string c.name ++ write_string c.datatype

/-- `write_columns`: varint count then each column's two strings. -/
def write_columns (columns : List Column) : List Nat :=
  write_len columns.length ++ columns.flatMap write_column

/-- The counted loop of `read_columns` (`protocol/src/lib.rs` lines 321-330). -/
def read_columns_aux : Nat → List Nat → Except Error (List Column × List Nat)
  | 0, s => .ok ([], s)
  | n + 1, s =>
    match read_string s with
    | .error e => .error e
    | .ok (name, s) =>
      match read_string s with
      | .error e => .error e
      | .ok (datatype, s) =>
        match read_columns_aux n s with
        | .error e => .error e
        | .ok (cols, s) => .ok (⟨name, datatype⟩ :: cols, s)

/-- `read_columns`. -/
def read_columns (s : List Nat) : Except Error (List Column × List Nat) :=
  match read_len s with
  | .error e => .error e
  | .ok (len, s) => read_columns_aux len s

/-- `struct Query` (`protocol/src/lib.rs` lines 289-295). -/
structure Query where
  columns : List Column
  values : List Value
  rows_affected : Nat
  duration : Nat
deriving DecidableEq, Repr

/-- `write_query` (`protocol/src/lib.rs` lines 399-406). -/
def write_query (query : Query) : List Nat :=
  write_columns query.columns ++ write_values query.values ++
    write_len query.rows_affected ++ write_len query.duration

/-- `read_query` (`protocol/src/lib.rs` lines 408-425): decode the four fields,
then reject malformed shapes before returning the `Query`. -/
def read_query (s : List Nat) : Except Error (Query × List Nat) :=
  match read_columns s with
  | .error e => .error e
  | .ok (columns, s) =>
    match read_values s with
    | .error e => .error e
    | .ok (values, s) =>
      match read_len s with
      | .error e => .error e
      | .ok (rows_affected, s) =>
        match read_len s with
        | .error e => .error e
        | .ok (duration, s) =>
          if columns.isEmpty ∧ ¬values.isEmpty then
            .error (.InvalidValuesLength values.length 0)
          else if ¬values.isEmpty ∧ values.length % columns.length ≠ 0 then
            .error (.InvalidValuesLength values.length columns.length)
          else .ok (⟨columns, values, rows_affected, duration⟩, s)

/-! ### Status frames and the session's SimpleQuery arm -/

/-- `enum Status` (`protocol/src/lib.rs` lines 185-189); the error message is a
`String` modelled as its UTF-8 bytes. -/
inductive Status
  | Ok
  | Err (msg : List Nat)
deriving DecidableEq, Repr

/-- `write_status` (`protocol/src/lib.rs` lines 201-213). -/
def write_status : Status → List Nat
  | .Ok => [0]
  | .Err err => 1 :: write_string err

/-- `read_status` (`protocol/src/lib.rs` lines 215-221). -/
def read_status (s : List Nat) : Except Error (Status × List Nat) :=
  match read_u8 s with
  | .error e => .error e
  | .ok (0, s) => .ok (.Ok, s)
  | .ok (1, s) =>
    match read_string s with
    | .error e => .error e
    | .ok (msg, s) => .ok (.Err msg, s)
  | .ok (n, _) => .error (.UnknownStatus n)

/-- The `Command::SimpleQuery` arm of the session loop (`src/main.rs`
lines 166-176): on backend success write an `Ok` status then the query frame;
on backend error write an `Err` status carrying the message and nothing else.
The backend outcome `conn.query(&sql)` is the `Except` argument. -/
def handle_simple_query (result : Except (List Nat) Query) : List Nat :=
  match result with
  | .ok query => write_status .Ok ++ write_query query
  | .error e => write_status (.Err e)

/-! ### Password comparison (`src/cli.rs` lines 69-80) -/

/-- Rust's 32-byte array equality as executed by `Password::verify`
(`server_password == client_password`): element-wise comparison that stops at
the first mismatching byte (memcmp semantics).  The second component counts the
byte comparisons performed, i.e. the data-dependent running time. -/
def array_eq_steps : List Nat → List Nat → Bool × Nat
  | [], [] => (true, 0)
  | a :: as_, b :: bs =>
    if a = b then
      let r := array_eq_steps as_ bs
      (r.1, r.2 + 1)
    else (false, 1)
  | _, _ => (false, 0)

/-! ### Well-formedness side conditions -/

/-- The `i64`/byte-range invariants a `Value` built by the Rust code satisfies:
`I64` holds an `i64`, `F64` a 64-bit pattern, `Bytes`/`Text` hold `u8` vectors
of `u64`-sized length. -/
def Value.wf : Value → Bool
  | .Null => true
  | .I64 v => decide (-(2 ^ 63) ≤ v) && decide (v < 2 ^ 63)
  | .F64 bits => decide (bits < 2 ^ 64)
  | .Bytes v => v.all (fun x => decide (x < 256)) && decide (v.length < 2 ^ 64)
  | .Text v => v.all (fun x => decide (x < 256)) && decide (v.length < 2 ^ 64)

/-- The invariants a Rust `String` on this wire satisfies: valid UTF-8 bytes of
`u64`-sized length. -/
def string_wf (s : List Nat) : Bool :=
  utf8Valid s && s.all (fun x => decide (x < 256)) && decide (s.length < 2 ^ 64)

/-- Well-formedness of a `Column`: both fields are Rust strings. -/
def Column.wf (c : Column) : Bool :=
  string_wf c.name && string_wf c.datatype

/-- Well-formedness of a `Query` as produced by the SQLite backend
(`src/sqlite.rs`): component invariants plus the row-major shape invariant
checked by `read_query`. -/
def Query.wf (q : Query) : Bool :=
  q.columns.all Column.wf && q.values.all Value.wf &&
    decide (q.columns.length < 2 ^ 64) && decide (q.values.length < 2 ^ 64) &&
    decide (q.rows_affected < 2 ^ 64) && decide (q.duration < 2 ^ 64) &&
    (q.values.isEmpty || (!q.columns.isEmpty &&
      decide (q.values.length % q.columns.length = 0)))

end Echolite

namespace Echolite

/-! Helper lemmas about the bit-level arithmetic used by the codec. -/

theorem and_127_eq_mod (n : Nat) : n &&& 127 = n % 128 := by
  have h := Nat.and_pow_two_sub_one_eq_mod n 7
  norm_num at h
  exact h

theorem and_128_eq_zero {n : Nat} (h : n < 128) : n &&& 128 = 0 := by
  apply Nat.eq_of_testBit_eq
  intro i
  rw [Nat.testBit_and, Nat.zero_testBit]
  rcases eq_or_ne i 7 with rfl | hne
  · rw [Nat.testBit_lt_two_pow (x := n) (show n < 2 ^ 7 by omega)]
    rfl
  · have h128 : Nat.testBit 128 i = false := by
      rw [show (128 : Nat) = 2 ^ 7 by norm_num, Nat.testBit_two_pow]
      simp [Ne.symm hne]
    simp [h128]

theorem cont_byte_and_127 (n : Nat) : (n &&& 127 ||| 128) &&& 127 = n &&& 127 := by
  rw [Nat.and_distrib_right, Nat.and_assoc]
  rw [show (128 : Nat) &&& 127 = 0 by decide, show (127 : Nat) &&& 127 = 127 by decide]
  rw [Nat.or_zero]

theorem cont_byte_and_128 (n : Nat) : (n &&& 127 ||| 128) &&& 128 = 128 := by
  rw [Nat.and_distrib_right, Nat.and_assoc]
  rw [show (127 : Nat) &&& 128 = 0 by decide, show (128 : Nat) &&& 128 = 128 by decide]
  rw [Nat.and_zero, Nat.zero_or]

/-- Disjoint-range `|||` is `+`: a value below `2^k` or-ed with a multiple of
`2^k`. -/
theorem or_shiftLeft_eq_add {a : Nat} (k b : Nat) (ha : a < 2 ^ k) :
    a ||| b * 2 ^ k = a + b * 2 ^ k := by
  have h := Nat.mul_add_lt_is_or (i := k) (b := a) ha b
  rw [Nat.or_comm, mul_comm b (2 ^ k)]
  omega

/-- One iteration of the `read_len` loop on a stream headed by `byte`, when the
shift guard passes. -/
theorem read_len_aux_cons (byte : Nat) (rest : List Nat) (len shift : Nat)
    (h : shift < 64) :
    read_len_aux (byte :: rest) len shift =
      if byte &&& 128 = 0 then
        .ok (len ||| ((byte &&& 127) <<< shift) % 2 ^ 64, rest)
      else
        read_len_aux rest (len ||| ((byte &&& 127) <<< shift) % 2 ^ 64) (shift + 7) := by
  rw [read_len_aux, if_neg (by omega), checked_shl, if_neg (by omega)]

/-- Invariant lemma for the varint round trip: running the read loop on
`write_len n` prepended to `rest`, with accumulator `len` and shift `shift`,
yields `len + n * 2^shift` and leaves `rest`. -/
theorem read_len_aux_write_len (n : Nat) :
    ∀ shift len rest, shift < 64 → n * 2 ^ shift < 2 ^ 64 → len < 2 ^ shift →
      read_len_aux (write_len n ++ rest) len shift = .ok (len + n * 2 ^ shift, rest) := by
  induction n using Nat.strong_induction_on with
  | _ n ih =>
    intro shift len rest hshift hn hlen
    by_cases h : n < 0x80
    · rw [write_len, dif_pos h]
      rw [List.cons_append, List.nil_append, read_len_aux_cons n rest len shift hshift]
      have hsmall : ((n &&& 127) <<< shift) % 2 ^ 64 = n * 2 ^ shift := by
        rw [and_127_eq_mod, Nat.mod_eq_of_lt h, Nat.shiftLeft_eq, Nat.mod_eq_of_lt hn]
      rw [hsmall, or_shiftLeft_eq_add shift n hlen]
      rw [if_pos (and_128_eq_zero h)]
    · rw [write_len, dif_neg h]
      rw [List.cons_append,
        read_len_aux_cons (n &&& 127 ||| 128) (write_len (n >>> 7) ++ rest) len shift hshift]
      have hmod : n % 128 ≤ n := Nat.mod_le n 128
      have hmod_lt : n % 128 * 2 ^ shift < 2 ^ 64 :=
        Nat.lt_of_le_of_lt (Nat.mul_le_mul_right _ hmod) hn
      have hsh : (((n &&& 127 ||| 128) &&& 127) <<< shift) % 2 ^ 64 =
          n % 128 * 2 ^ shift := by
        rw [cont_byte_and_127, and_127_eq_mod, Nat.shiftLeft_eq, Nat.mod_eq_of_lt hmod_lt]
      rw [hsh, or_shiftLeft_eq_add shift (n % 128) hlen]
      rw [if_neg (by rw [cont_byte_and_128]; omega)]
      -- bound giving `shift + 7 < 64`
      have hpow : 2 ^ (shift + 7) < 2 ^ 64 := by
        calc 2 ^ (shift + 7) = 128 * 2 ^ shift := by ring
        _ ≤ n * 2 ^ shift := Nat.mul_le_mul_right _ (by omega)
        _ < 2 ^ 64 := hn
      have hshift7 : shift + 7 < 64 := by
        by_contra hc
        have hle : (2 : Nat) ^ 64 ≤ 2 ^ (shift + 7) :=
          Nat.pow_le_pow_right (by norm_num) (by omega)
        omega
      have hdiv : n >>> 7 = n / 128 := by
        rw [Nat.shiftRight_eq_div_pow]
      have harg : n / 128 * 2 ^ (shift + 7) ≤ n * 2 ^ shift := by
        calc n / 128 * 2 ^ (shift + 7) = n / 128 * 128 * 2 ^ shift := by ring
        _ ≤ n * 2 ^ shift := Nat.mul_le_mul_right _ (Nat.div_mul_le_self n 128)
      have hlen' : len + n % 128 * 2 ^ shift < 2 ^ (shift + 7) := by
        have h1 : n % 128 * 2 ^ shift ≤ 127 * 2 ^ shift :=
          Nat.mul_le_mul_right _ (by omega : n % 128 ≤ 127)
        calc len + n % 128 * 2 ^ shift < 2 ^ shift + 127 * 2 ^ shift := by omega
        _ = 2 ^ (shift + 7) := by ring
      rw [hdiv, ih (n / 128) (Nat.div_lt_self (by omega) (by norm_num)) (shift + 7)
        (len + n % 128 * 2 ^ shift) rest hshift7 (Nat.lt_of_le_of_lt harg hn) hlen']
      have hsplit : n / 128 * 2 ^ (shift + 7) = n / 128 * 128 * 2 ^ shift := by ring
      have hsum : n % 128 * 2 ^ shift + n / 128 * 128 * 2 ^ shift = n * 2 ^ shift := by
        have hrec : n % 128 + n / 128 * 128 = n := by omega
        calc n % 128 * 2 ^ shift + n / 128 * 128 * 2 ^ shift
            = (n % 128 + n / 128 * 128) * 2 ^ shift := by ring
        _ = n * 2 ^ shift := by rw [hrec]
      have hfinal : len + n % 128 * 2 ^ shift + n / 128 * 2 ^ (shift + 7) =
          len + n * 2 ^ shift := by
        rw [hsplit]
        omega
      rw [hfinal]

/-- The varint round trip, stated on a stream with arbitrary trailing bytes. -/
theorem read_len_write_len (n : Nat) (rest : List Nat) (h : n < 2 ^ 64) :
    read_len (write_len n ++ rest) = .ok (n, rest) := by
  have := read_len_aux_write_len n 0 0 rest (by norm_num)
    (by simpa using h) (by norm_num)
  simpa [read_len] using this

end Echolite

namespace Echolite

/-! ### Zig-zag lemmas -/

/-- Xor with an all-ones mask is complement within the width. -/
theorem xor_complement {w x : Nat} (hx : x < 2 ^ w) :
    x ^^^ (2 ^ w - 1) = 2 ^ w - 1 - x := by
  induction w generalizing x with
  | zero =>
    have hz : x = 0 := by omega
    subst hz
    rfl
  | succ w ih =>
    have hp : 0 < 2 ^ w := Nat.two_pow_pos w
    have h2 : 2 ^ (w + 1) = 2 * 2 ^ w := by ring
    have hodd : (2 ^ (w + 1) - 1) % 2 = 1 := by omega
    have hhalf : (2 ^ (w + 1) - 1) / 2 = 2 ^ w - 1 := by omega
    have hdiv : (x ^^^ (2 ^ (w + 1) - 1)) / 2 = 2 ^ w - 1 - x / 2 := by
      rw [Nat.xor_div_two, hhalf, ih (by omega)]
    have hiff := Nat.xor_mod_two_eq_one (a := x) (b := 2 ^ (w + 1) - 1)
    have hmod : (x ^^^ (2 ^ (w + 1) - 1)) % 2 = 1 - x % 2 := by
      rcases Nat.mod_two_eq_zero_or_one x with h0 | h1
      · have hone : (x ^^^ (2 ^ (w + 1) - 1)) % 2 = 1 :=
          hiff.mpr (by simp [h0, hodd])
        omega
      · have hnot : ¬(x ^^^ (2 ^ (w + 1) - 1)) % 2 = 1 := by
          intro hc
          have hcc := hiff.mp hc
          rw [h1, hodd] at hcc
          exact hcc Iff.rfl
        omega
    omega

theorem i64_as_u64_nonneg {v : Int} (h0 : 0 ≤ v) (h1 : v < 2 ^ 64) :
    i64_as_u64 v = v.toNat := by
  unfold i64_as_u64
  rw [Int.emod_eq_of_lt h0 h1]

theorem i64_as_u64_zero : i64_as_u64 0 = 0 := rfl

theorem i64_as_u64_neg_one : i64_as_u64 (-1) = 2 ^ 64 - 1 := by
  unfold i64_as_u64
  have hm : (-1 : Int) % 2 ^ 64 = 2 ^ 64 - 1 := by omega
  rw [hm]
  omega

theorem i64_as_u64_neg {v : Int} (hn : v < 0) (h1 : -(2 ^ 63) ≤ v) :
    (i64_as_u64 v : Int) = v + 2 ^ 64 := by
  unfold i64_as_u64
  have hm : v % 2 ^ 64 = v + 2 ^ 64 := by omega
  rw [hm]
  omega

/-- On a non-negative `i64`, zig-zag encoding doubles the value. -/
theorem zigzag_encode_nonneg {v : Int} (h0 : 0 ≤ v) (h1 : v < 2 ^ 63) :
    zigzag_encode v = 2 * v.toNat := by
  unfold zigzag_encode sar63
  rw [if_neg (by omega), i64_as_u64_zero, Nat.xor_zero,
    i64_as_u64_nonneg h0 (by omega)]
  have hlt : v.toNat * 2 < 2 ^ 64 := by omega
  rw [Nat.mod_eq_of_lt hlt, Nat.mul_comm]

/-- On a negative `i64`, zig-zag encoding yields `-2v - 1`. -/
theorem zigzag_encode_neg {v : Int} (hn : v < 0) (h1 : -(2 ^ 63) ≤ v) :
    zigzag_encode v = (-2 * v - 1).toNat := by
  unfold zigzag_encode sar63
  rw [if_pos hn, i64_as_u64_neg_one]
  have hu : (i64_as_u64 v : Int) = v + 2 ^ 64 := i64_as_u64_neg hn h1
  have hmod : i64_as_u64 v * 2 % 2 ^ 64 = (2 * v + 2 ^ 64).toNat := by omega
  rw [hmod]
  have hlt : (2 * v + 2 ^ 64).toNat < 2 ^ 64 := by omega
  rw [xor_complement hlt]
  omega

/-- Decoding an even codeword halves it. -/
theorem zigzag_decode_even {n : Nat} (h : n < 2 ^ 63) :
    zigzag_decode (2 * n) = (n : Int) := by
  unfold zigzag_decode
  have h1 : (2 * n) &&& 1 = 0 := by
    rw [Nat.and_one_is_mod]
    omega
  rw [h1]
  have hz : -((0 : Nat) : Int) = 0 := by norm_num
  rw [hz, i64_as_u64_zero, Nat.xor_zero]
  have hs : (2 * n) >>> 1 = n := by
    rw [Nat.shiftRight_eq_div_pow]
    omega
  rw [hs]
  unfold toSigned
  rw [if_pos h]

/-- Decoding an odd codeword `2k + 1` yields `-(k + 1)`. -/
theorem zigzag_decode_odd {k : Nat} (h : k < 2 ^ 63) :
    zigzag_decode (2 * k + 1) = -((k : Int) + 1) := by
  unfold zigzag_decode
  have h1 : (2 * k + 1) &&& 1 = 1 := by
    rw [Nat.and_one_is_mod]
    omega
  rw [h1]
  have hneg : -((1 : Nat) : Int) = -1 := by norm_num
  rw [hneg, i64_as_u64_neg_one]
  have hs : (2 * k + 1) >>> 1 = k := by
    rw [Nat.shiftRight_eq_div_pow]
    omega
  rw [hs, xor_complement (by omega : k < 2 ^ 64)]
  unfold toSigned
  rw [if_neg (by omega)]
  omega

/-- The zig-zag round trip on the `i64` range. -/
theorem zigzag_roundtrip {v : Int} (h0 : -(2 ^ 63) ≤ v) (h1 : v < 2 ^ 63) :
    zigzag_decode (zigzag_encode v) = v := by
  rcases le_or_lt 0 v with hpos | hneg
  · rw [zigzag_encode_nonneg hpos h1, zigzag_decode_even (by omega)]
    omega
  · rw [zigzag_encode_neg hneg h0]
    have he : (-2 * v - 1).toNat = 2 * (-v - 1).toNat + 1 := by omega
    rw [he, zigzag_decode_odd (by omega)]
    omega

end Echolite

namespace Echolite

/-! ### Round trips of the byte-level primitives -/

theorem read_exact_append (b rest : List Nat) :
    read_exact b.length (b ++ rest) = .ok (b, rest) := by
  unfold read_exact
  rw [if_neg (by simp), List.take_left, List.drop_left]

theorem read_bytes_write_bytes (b rest : List Nat) (h : b.length < 2 ^ 64) :
    read_bytes (write_bytes b ++ rest) = .ok (b, rest) := by
  unfold read_bytes write_bytes
  rw [List.append_assoc, read_len_write_len b.length (b ++ rest) h]
  exact read_exact_append b rest

theorem read_string_write_string (b rest : List Nat) (h : string_wf b) :
    read_string (write_string b ++ rest) = .ok (b, rest) := by
  unfold read_string write_string
  unfold string_wf at h
  rw [read_bytes_write_bytes b rest (by simp at h; exact h.2)]
  simp only [if_pos (by simp at h; exact h.1.1)]

theorem read_f64_write_f64 (bits : Nat) (rest : List Nat) (h : bits < 2 ^ 64) :
    read_f64 (write_f64 bits ++ rest) = .ok (bits, rest) := by
  unfold read_f64 write_f64
  have hx := read_exact_append [bits >>> 56 % 256, bits >>> 48 % 256,
    bits >>> 40 % 256, bits >>> 32 % 256, bits >>> 24 % 256, bits >>> 16 % 256,
    bits >>> 8 % 256, bits % 256] rest
  simp only [List.length_cons, List.length_nil] at hx
  rw [show (0 + 1 + 1 + 1 + 1 + 1 + 1 + 1 + 1 : Nat) = 8 from rfl] at hx
  rw [hx]
  simp only [List.foldl]
  congr 1
  congr 1
  simp only [Nat.shiftRight_eq_div_pow]
  norm_num
  omega

end Echolite

namespace Echolite

/-! ### Value round trip -/

theorem write_len_small {n : Nat} (h : n < 128) : write_len n = [n] := by
  rw [write_len, dif_pos h]

theorem write_len_large {n : Nat} (h : ¬n < 128) :
    write_len n = (n &&& 127 ||| 128) :: write_len (n >>> 7) := by
  rw [write_len, dif_neg h]

theorem read_value_tag0 (tail : List Nat) : read_value (0 :: tail) = .ok (.Null, tail) := rfl

theorem read_value_tag1 (tail : List Nat) :
    read_value (1 :: tail) =
      match read_len tail with
      | .error e => .error e
      | .ok (n, s) => .ok (.I64 (toSigned n), s) := rfl

theorem read_value_tag2 (tail : List Nat) :
    read_value (2 :: tail) =
      match read_len tail with
      | .error e => .error e
      | .ok (encoded, s) => .ok (.I64 (zigzag_decode encoded), s) := rfl

theorem read_value_tag3 (tail : List Nat) :
    read_value (3 :: tail) =
      match read_f64 tail with
      | .error e => .error e
      | .ok (bits, s) => .ok (.F64 bits, s) := rfl

theorem read_value_tag4 (tail : List Nat) : read_value (4 :: tail) = .ok (.Bytes [], tail) := rfl

theorem read_value_tag5 (tail : List Nat) :
    read_value (5 :: tail) =
      match read_bytes tail with
      | .error e => .error e
      | .ok (b, s) => .ok (.Bytes b, s) := rfl

theorem read_value_tag6 (tail : List Nat) : read_value (6 :: tail) = .ok (.Text [], tail) := rfl

theorem read_value_tag7 (tail : List Nat) :
    read_value (7 :: tail) =
      match read_bytes tail with
      | .error e => .error e
      | .ok (b, s) => .ok (.Text b, s) := rfl

/-- Round trip of a single value through the writer's encoding. -/
theorem read_value_write_value (v : Value) (rest : List Nat)
    (h : Value.wf v = true) :
    read_value (write_value v ++ rest) = .ok (v, rest) := by
  cases v with
  | Null => exact read_value_tag0 rest
  | I64 v =>
    have hwf : -(2 ^ 63) ≤ v ∧ v < 2 ^ 63 := by
      simp [Value.wf] at h
      omega
    by_cases hv : 0 ≤ v
    · rw [write_value, if_pos hv, List.cons_append, read_value_tag1]
      have hb : i64_as_u64 v < 2 ^ 64 := by
        rw [i64_as_u64_nonneg hv (by omega)]
        omega
      rw [read_len_write_len _ rest hb]
      have hts : toSigned (i64_as_u64 v) = v := by
        rw [i64_as_u64_nonneg hv (by omega)]
        unfold toSigned
        rw [if_pos (by omega)]
        omega
      show Except.ok (Value.I64 (toSigned (i64_as_u64 v)), rest) =
        Except.ok (Value.I64 v, rest)
      rw [hts]
    · rw [write_value, if_neg hv, List.cons_append, read_value_tag2]
      have hb : zigzag_encode v < 2 ^ 64 := by
        rw [zigzag_encode_neg (by omega) hwf.1]
        omega
      rw [read_len_write_len _ rest hb]
      show Except.ok (Value.I64 (zigzag_decode (zigzag_encode v)), rest) =
        Except.ok (Value.I64 v, rest)
      rw [zigzag_roundtrip hwf.1 hwf.2]
  | F64 bits =>
    have hb : bits < 2 ^ 64 := by
      simpa [Value.wf] using h
    rw [write_value, List.cons_append, read_value_tag3,
      read_f64_write_f64 bits rest hb]
  | Bytes b =>
    have hlen : b.length < 2 ^ 64 := by
      simp [Value.wf] at h
      exact h.2
    by_cases hb : b = []
    · subst hb
      rw [write_value, if_pos rfl]
      exact read_value_tag4 rest
    · rw [write_value, if_neg hb, List.cons_append, read_value_tag5,
        read_bytes_write_bytes b rest hlen]
  | Text b =>
    have hlen : b.length < 2 ^ 64 := by
      simp [Value.wf] at h
      exact h.2
    by_cases hb : b = []
    · subst hb
      rw [write_value, if_pos rfl]
      exact read_value_tag6 rest
    · rw [write_value, if_neg hb, List.cons_append, read_value_tag7,
        read_bytes_write_bytes b rest hlen]

/-- Round trip of the counted value loop. -/
theorem read_values_aux_append (vs : List Value) (rest : List Nat)
    (h : ∀ v ∈ vs, Value.wf v = true) :
    read_values_aux vs.length (vs.flatMap write_value ++ rest) = .ok (vs, rest) := by
  induction vs generalizing rest with
  | nil => rfl
  | cons v vs ih =>
    rw [List.length_cons, List.flatMap_cons, List.append_assoc]
    show (match read_value (write_value v ++ (vs.flatMap write_value ++ rest)) with
      | Except.error e => (Except.error e : Except Error (List Value × List Nat))
      | Except.ok (v, s) =>
        match read_values_aux vs.length s with
        | Except.error e => Except.error e
        | Except.ok (vs, s) => Except.ok (v :: vs, s)) = Except.ok (v :: vs, rest)
    rw [read_value_write_value v _ (h v (by simp))]
    show (match read_values_aux vs.length (vs.flatMap write_value ++ rest) with
      | Except.error e => (Except.error e : Except Error (List Value × List Nat))
      | Except.ok (vs', s) => Except.ok (v :: vs', s)) = Except.ok (v :: vs, rest)
    rw [ih rest (fun x hx => h x (by simp [hx]))]

/-- Round trip of a value list frame (`read_values ∘ write_values`). -/
theorem read_values_write_values (vs : List Value) (rest : List Nat)
    (hwf : ∀ v ∈ vs, Value.wf v = true) (hlen : vs.length < 2 ^ 64) :
    read_values (write_values vs ++ rest) = .ok (vs, rest) := by
  unfold read_values write_values
  rw [List.append_assoc, read_len_write_len vs.length _ hlen]
  exact read_values_aux_append vs rest hwf

end Echolite

namespace Echolite

/-! ### Column, query and status round trips -/

theorem read_columns_aux_append (cols : List Column) (rest : List Nat)
    (h : ∀ c ∈ cols, Column.wf c = true) :
    read_columns_aux cols.length (cols.flatMap write_column ++ rest) = .ok (cols, rest) := by
  induction cols generalizing rest with
  | nil => rfl
  | cons c cols ih =>
    have hc : Column.wf c = true := h c (by simp)
    have hname : string_wf c.name = true := by
      simp [Column.wf] at hc
      exact hc.1
    have hdt : string_wf c.datatype = true := by
      simp [Column.wf] at hc
      exact hc.2
    rw [List.length_cons, List.flatMap_cons, write_column, List.append_assoc,
      List.append_assoc]
    show (match read_string (write_string c.name ++
        (write_string c.datatype ++ (cols.flatMap write_column ++ rest))) with
      | Except.error e => (Except.error e : Except Error (List Column × List Nat))
      | Except.ok (name, s) =>
        match read_string s with
        | Except.error e => Except.error e
        | Except.ok (datatype, s) =>
          match read_columns_aux cols.length s with
          | Except.error e => Except.error e
          | Except.ok (cs, s) => Except.ok (⟨name, datatype⟩ :: cs, s)) =
      Except.ok (c :: cols, rest)
    rw [read_string_write_string c.name _ hname]
    show (match read_string (write_string c.datatype ++ (cols.flatMap write_column ++ rest)) with
      | Except.error e => (Except.error e : Except Error (List Column × List Nat))
      | Except.ok (datatype, s) =>
        match read_columns_aux cols.length s with
        | Except.error e => Except.error e
        | Except.ok (cs, s) => Except.ok (⟨c.name, datatype⟩ :: cs, s)) =
      Except.ok (c :: cols, rest)
    rw [read_string_write_string c.datatype _ hdt]
    show (match read_columns_aux cols.length (cols.flatMap write_column ++ rest) with
      | Except.error e => (Except.error e : Except Error (List Column × List Nat))
      | Except.ok (cs, s) => Except.ok (⟨c.name, c.datatype⟩ :: cs, s)) =
      Except.ok (c :: cols, rest)
    rw [ih rest (fun x hx => h x (by simp [hx]))]

theorem read_columns_write_columns (cols : List Column) (rest : List Nat)
    (hwf : ∀ c ∈ cols, Column.wf c = true) (hlen : cols.length < 2 ^ 64) :
    read_columns (write_columns cols ++ rest) = .ok (cols, rest) := by
  unfold read_columns write_columns
  rw [List.append_assoc, read_len_write_len cols.length _ hlen]
  exact read_columns_aux_append cols rest hwf

/-- Round trip of a full query frame through the writer, for well-formed
queries (as the SQLite backend produces them). -/
theorem read_query_write_query (q : Query) (rest : List Nat)
    (hwf : Query.wf q = true) :
    read_query (write_query q ++ rest) = .ok (q, rest) := by
  have hq := hwf
  simp only [Query.wf, Bool.and_eq_true, decide_eq_true_eq, List.all_eq_true,
    Bool.or_eq_true, Bool.not_eq_true'] at hq
  obtain ⟨⟨⟨⟨⟨⟨hcols, hvals⟩, hclen⟩, hvlen⟩, hra⟩, hd⟩, hshape⟩ := hq
  unfold read_query write_query
  rw [List.append_assoc, List.append_assoc, List.append_assoc,
    read_columns_write_columns q.columns _ hcols hclen]
  show (match read_values (write_values q.values ++
      (write_len q.rows_affected ++ (write_len q.duration ++ rest))) with
    | Except.error e => (Except.error e : Except Error (Query × List Nat))
    | Except.ok (values, s) =>
      match read_len s with
      | Except.error e => Except.error e
      | Except.ok (rows_affected, s) =>
        match read_len s with
        | Except.error e => Except.error e
        | Except.ok (duration, s) =>
          if q.columns.isEmpty ∧ ¬values.isEmpty then
            Except.error (Error.InvalidValuesLength values.length 0)
          else if ¬values.isEmpty ∧ values.length % q.columns.length ≠ 0 then
            Except.error (Error.InvalidValuesLength values.length q.columns.length)
          else Except.ok (⟨q.columns, values, rows_affected, duration⟩, s)) =
    Except.ok (q, rest)
  rw [read_values_write_values q.values _ hvals hvlen]
  show (match read_len (write_len q.rows_affected ++ (write_len q.duration ++ rest)) with
    | Except.error e => (Except.error e : Except Error (Query × List Nat))
    | Except.ok (rows_affected, s) =>
      match read_len s with
      | Except.error e => Except.error e
      | Except.ok (duration, s) =>
        if q.columns.isEmpty ∧ ¬q.values.isEmpty then
          Except.error (Error.InvalidValuesLength q.values.length 0)
        else if ¬q.values.isEmpty ∧ q.values.length % q.columns.length ≠ 0 then
          Except.error (Error.InvalidValuesLength q.values.length q.columns.length)
        else Except.ok (⟨q.columns, q.values, rows_affected, duration⟩, s)) =
    Except.ok (q, rest)
  rw [read_len_write_len q.rows_affected _ hra]
  show (match read_len (write_len q.duration ++ rest) with
    | Except.error e => (Except.error e : Except Error (Query × List Nat))
    | Except.ok (duration, s) =>
      if q.columns.isEmpty ∧ ¬q.values.isEmpty then
        Except.error (Error.InvalidValuesLength q.values.length 0)
      else if ¬q.values.isEmpty ∧ q.values.length % q.columns.length ≠ 0 then
        Except.error (Error.InvalidValuesLength q.values.length q.columns.length)
      else Except.ok (⟨q.columns, q.values, q.rows_affected, duration⟩, s)) =
    Except.ok (q, rest)
  rw [read_len_write_len q.duration _ hd]
  show (if q.columns.isEmpty ∧ ¬q.values.isEmpty then
      Except.error (Error.InvalidValuesLength q.values.length 0)
    else if ¬q.values.isEmpty ∧ q.values.length % q.columns.length ≠ 0 then
      Except.error (Error.InvalidValuesLength q.values.length q.columns.length)
    else Except.ok (⟨q.columns, q.values, q.rows_affected, q.duration⟩, rest)) =
    Except.ok (q, rest)
  rcases hshape with hempty | ⟨hcne, hmod⟩
  · rw [if_neg (by simp [hempty]), if_neg (by simp [hempty])]
  · rw [if_neg (by simp [hcne]), if_neg (by simp [hmod])]

end Echolite

namespace Echolite

/-! ### Status round trip -/

theorem read_status_tag0 (tail : List Nat) :
    read_status (0 :: tail) = .ok (.Ok, tail) := rfl

theorem read_status_tag1 (tail : List Nat) :
    read_status (1 :: tail) =
      match read_string tail with
      | .error e => .error e
      | .ok (msg, s) => .ok (.Err msg, s) := rfl

theorem read_status_write_status_ok (rest : List Nat) :
    read_status (write_status .Ok ++ rest) = .ok (.Ok, rest) := rfl

theorem read_status_write_status_err (msg rest : List Nat)
    (h : string_wf msg = true) :
    read_status (write_status (.Err msg) ++ rest) = .ok (.Err msg, rest) := by
  show read_status (1 :: (write_string msg ++ rest)) = .ok (.Err msg, rest)
  rw [read_status_tag1, read_string_write_string msg rest h]

end Echolite

namespace Echolite

/-! ## Claim theorems -/

/-- Claim C1: for every unsigned 64-bit integer `n`, decoding a varint from the
byte sequence produced by `write_len n` consumes exactly that encoding and
returns `n` without error (any trailing bytes are left untouched). -/
theorem C1_varint_roundtrip (n : Nat) (rest : List Nat) (h : n < 2 ^ 64) :
    read_len (write_len n ++ rest) = .ok (n, rest) :=
  read_len_write_len n rest h

theorem C1_varint_roundtrip_witness :
    (300 : Nat) < 2 ^ 64 ∧ read_len (write_len 300 ++ [7]) = .ok (300, [7]) :=
  ⟨by norm_num, C1_varint_roundtrip 300 [7] (by norm_num)⟩

/-- Claim C2: for every well-formed `Value` `v` (the writer emits the canonical
form: tag 1 for non-negative `I64`, tag 2 for negative, tags 4/6 for empty
`Bytes`/`Text`), reading a value list from the bytes `write_values [v]` returns
`[v]` unchanged.  `F64` is compared by its 64-bit pattern, which is what the
codec transports. -/
theorem C2_value_roundtrip (v : Value) (rest : List Nat) (h : Value.wf v = true) :
    read_values (write_values [v] ++ rest) = .ok ([v], rest) :=
  read_values_write_values [v] rest (by simpa using h) (by norm_num)

theorem C2_value_roundtrip_witness :
    Value.wf (.I64 (-5)) = true ∧
      read_values (write_values [.I64 (-5)] ++ []) = .ok ([.I64 (-5)], []) :=
  ⟨by decide, C2_value_roundtrip (.I64 (-5)) [] (by decide)⟩

/-- Claim C3: the zig-zag transformation of the codec is inverted by its
decoder on the whole `i64` range, including `i64::MIN = -2^63`:
`decode (encode v) = v` where `encode v = (v << 1) ^ (v >> 63)` and
`decode e = (e >> 1) ^ -(e & 1)` as in the source. -/
theorem C3_zigzag_bijection (v : Int) (h0 : -(2 ^ 63) ≤ v) (h1 : v < 2 ^ 63) :
    zigzag_decode (zigzag_encode v) = v :=
  zigzag_roundtrip h0 h1

theorem C3_zigzag_bijection_witness :
    -(2 ^ 63) ≤ (-(2 ^ 63) : Int) ∧ (-(2 ^ 63) : Int) < 2 ^ 63 ∧
      zigzag_decode (zigzag_encode (-(2 ^ 63))) = -(2 ^ 63) :=
  ⟨by norm_num, by norm_num, C3_zigzag_bijection (-(2 ^ 63)) (by norm_num) (by norm_num)⟩

/-- Claim C8: for every non-negative `i64` `v`, a value encoded as tag 2
followed by `varint (zigzag v)` reads back as `I64 v`, exactly like the
canonical tag-1 encoding `varint v`; in particular tag 2 with varint `0`
decodes to `I64 0`. -/
theorem C8_tag2_nonneg (v : Int) (rest : List Nat) (h0 : 0 ≤ v) (h1 : v < 2 ^ 63) :
    read_value (2 :: (write_len (zigzag_encode v) ++ rest)) = .ok (.I64 v, rest) ∧
    read_value (1 :: (write_len (i64_as_u64 v) ++ rest)) = .ok (.I64 v, rest) ∧
    read_value (2 :: 0 :: rest) = .ok (.I64 0, rest) := by
  have henc : zigzag_encode v = 2 * v.toNat := zigzag_encode_nonneg h0 h1
  have hu : i64_as_u64 v = v.toNat := i64_as_u64_nonneg h0 (by omega)
  refine ⟨?_, ?_, ?_⟩
  · rw [read_value_tag2, read_len_write_len _ rest (by omega)]
    show Except.ok (Value.I64 (zigzag_decode (zigzag_encode v)), rest) =
      Except.ok (Value.I64 v, rest)
    rw [henc, zigzag_decode_even (by omega), Int.toNat_of_nonneg h0]
  · rw [read_value_tag1, read_len_write_len _ rest (by omega)]
    show Except.ok (Value.I64 (toSigned (i64_as_u64 v)), rest) =
      Except.ok (Value.I64 v, rest)
    rw [hu]
    unfold toSigned
    rw [if_pos (by omega), Int.toNat_of_nonneg h0]
  · rfl

theorem C8_tag2_nonneg_witness :
    (0 : Int) ≤ 21 ∧ (21 : Int) < 2 ^ 63 ∧
      read_value (2 :: (write_len (zigzag_encode 21) ++ [])) = .ok (.I64 21, []) :=
  ⟨by norm_num, by norm_num, (C8_tag2_nonneg 21 [] (by norm_num) (by norm_num)).1⟩

/-- Claim C10: a tag-1 value never fails on the magnitude: for a varint payload
`e` above `i64::MAX`, `read_values`' tag-1 branch returns `I64` of `e` cast to
`i64`, i.e. the negative number `e - 2^64`, rather than an error. -/
theorem C10_tag1_large (e : Nat) (rest : List Nat) (h0 : 2 ^ 63 ≤ e) (h1 : e < 2 ^ 64) :
    read_value (1 :: (write_len e ++ rest)) = .ok (.I64 (toSigned e), rest) ∧
    toSigned e = (e : Int) - 2 ^ 64 ∧ toSigned e < 0 := by
  have hts : toSigned e = (e : Int) - 2 ^ 64 := by
    unfold toSigned
    rw [if_neg (by omega)]
  refine ⟨?_, hts, by omega⟩
  rw [read_value_tag1, read_len_write_len _ rest h1]

theorem C10_tag1_large_witness :
    2 ^ 63 ≤ 2 ^ 63 + 5 ∧ (2 ^ 63 + 5 : Nat) < 2 ^ 64 ∧
      read_value (1 :: (write_len (2 ^ 63 + 5) ++ [])) =
        .ok (.I64 (toSigned (2 ^ 63 + 5)), []) :=
  ⟨by norm_num, by norm_num, (C10_tag1_large (2 ^ 63 + 5) [] (by norm_num) (by norm_num)).1⟩

end Echolite

namespace Echolite

/-- Unconditional unfolding of one `read_len` loop iteration. -/
theorem read_len_aux_step (byte : Nat) (rest : List Nat) (len shift : Nat) :
    read_len_aux (byte :: rest) len shift =
      if 64 ≤ shift then .error .Varint
      else if byte &&& 128 = 0 then
        .ok (len ||| ((byte &&& 127) <<< shift) % 2 ^ 64, rest)
      else
        read_len_aux rest (len ||| ((byte &&& 127) <<< shift) % 2 ^ 64) (shift + 7) := by
  rw [read_len_aux]
  by_cases h : 64 ≤ shift
  · rw [if_pos h, if_pos h]
  · rw [if_neg h, if_neg h, checked_shl, if_neg h]

/-- Claim C5: a varint whose continuation bits force the accumulated shift to
reach 64 — ten bytes with the continuation bit set, so that an eleventh byte is
read at shift 70 — fails with the `Varint` error, whatever the bytes are. -/
theorem C5_varint_shift_overflow
    (b0 b1 b2 b3 b4 b5 b6 b7 b8 b9 b10 : Nat) (rest : List Nat)
    (h0 : b0 &&& 128 ≠ 0) (h1 : b1 &&& 128 ≠ 0) (h2 : b2 &&& 128 ≠ 0)
    (h3 : b3 &&& 128 ≠ 0) (h4 : b4 &&& 128 ≠ 0) (h5 : b5 &&& 128 ≠ 0)
    (h6 : b6 &&& 128 ≠ 0) (h7 : b7 &&& 128 ≠ 0) (h8 : b8 &&& 128 ≠ 0)
    (h9 : b9 &&& 128 ≠ 0) :
    read_len (b0 :: b1 :: b2 :: b3 :: b4 :: b5 :: b6 :: b7 :: b8 :: b9 :: b10 :: rest) =
      .error .Varint := by
  unfold read_len
  simp only [read_len_aux_step]
  norm_num [h0, h1, h2, h3, h4, h5, h6, h7, h8, h9]

theorem C5_varint_shift_overflow_witness :
    (255 : Nat) &&& 128 ≠ 0 ∧
      read_len [255, 255, 255, 255, 255, 255, 255, 255, 255, 255, 1] =
        .error .Varint :=
  ⟨by decide, C5_varint_shift_overflow 255 255 255 255 255 255 255 255 255 255 1 []
    (by decide) (by decide) (by decide) (by decide) (by decide) (by decide)
    (by decide) (by decide) (by decide) (by decide)⟩

end Echolite

namespace Echolite

/-- Claim C9: the varint reader tolerates overlong ten-byte encodings: with the
first nine continuation bits set and the tenth clear, `read_len` succeeds, and
of the tenth byte's 7-bit group only the lowest bit (landing at position 63)
contributes — the bits that would land at positions 64 and above are silently
discarded.  In particular `FF FF FF FF FF FF FF FF FF 7F` decodes, without
error, to the same `u64::MAX` as the canonical `FF FF FF FF FF FF FF FF FF 01`. -/
theorem C9_varint_overlong (b0 b1 b2 b3 b4 b5 b6 b7 b8 b9 : Nat)
    (h0 : b0 &&& 128 ≠ 0) (h1 : b1 &&& 128 ≠ 0) (h2 : b2 &&& 128 ≠ 0)
    (h3 : b3 &&& 128 ≠ 0) (h4 : b4 &&& 128 ≠ 0) (h5 : b5 &&& 128 ≠ 0)
    (h6 : b6 &&& 128 ≠ 0) (h7 : b7 &&& 128 ≠ 0) (h8 : b8 &&& 128 ≠ 0)
    (h9 : b9 &&& 128 = 0) :
    read_len [b0, b1, b2, b3, b4, b5, b6, b7, b8, b9] =
      .ok ((b0 &&& 127) + (b1 &&& 127) * 2 ^ 7 + (b2 &&& 127) * 2 ^ 14 +
        (b3 &&& 127) * 2 ^ 21 + (b4 &&& 127) * 2 ^ 28 + (b5 &&& 127) * 2 ^ 35 +
        (b6 &&& 127) * 2 ^ 42 + (b7 &&& 127) * 2 ^ 49 + (b8 &&& 127) * 2 ^ 56 +
        (b9 &&& 1) * 2 ^ 63, []) ∧
    read_len [255, 255, 255, 255, 255, 255, 255, 255, 255, 0x7F] =
      .ok (2 ^ 64 - 1, []) ∧
    read_len [255, 255, 255, 255, 255, 255, 255, 255, 255, 0x01] =
      .ok (2 ^ 64 - 1, []) := by
  have hb0 : b0 &&& 127 ≤ 127 := Nat.and_le_right
  have hb1 : b1 &&& 127 ≤ 127 := Nat.and_le_right
  have hb2 : b2 &&& 127 ≤ 127 := Nat.and_le_right
  have hb3 : b3 &&& 127 ≤ 127 := Nat.and_le_right
  have hb4 : b4 &&& 127 ≤ 127 := Nat.and_le_right
  have hb5 : b5 &&& 127 ≤ 127 := Nat.and_le_right
  have hb6 : b6 &&& 127 ≤ 127 := Nat.and_le_right
  have hb7 : b7 &&& 127 ≤ 127 := Nat.and_le_right
  have hb8 : b8 &&& 127 ≤ 127 := Nat.and_le_right
  refine ⟨?_, rfl, rfl⟩
  have e0 : read_len_aux [b0, b1, b2, b3, b4, b5, b6, b7, b8, b9] 0 0 =
      read_len_aux [b1, b2, b3, b4, b5, b6, b7, b8, b9] (b0 &&& 127) 7 := by
    rw [read_len_aux_step, if_neg (by norm_num), if_neg h0, Nat.shiftLeft_eq,
      pow_zero, mul_one, Nat.mod_eq_of_lt (by omega), Nat.zero_or]
  have e1 : read_len_aux [b1, b2, b3, b4, b5, b6, b7, b8, b9] (b0 &&& 127) 7 =
      read_len_aux [b2, b3, b4, b5, b6, b7, b8, b9]
        ((b0 &&& 127) + (b1 &&& 127) * 2 ^ 7) 14 := by
    rw [read_len_aux_step, if_neg (by norm_num), if_neg h1, Nat.shiftLeft_eq,
      Nat.mod_eq_of_lt (by omega), or_shiftLeft_eq_add 7 (b1 &&& 127) (by omega)]
  have e2 : read_len_aux [b2, b3, b4, b5, b6, b7, b8, b9]
        ((b0 &&& 127) + (b1 &&& 127) * 2 ^ 7) 14 =
      read_len_aux [b3, b4, b5, b6, b7, b8, b9]
        ((b0 &&& 127) + (b1 &&& 127) * 2 ^ 7 + (b2 &&& 127) * 2 ^ 14) 21 := by
    rw [read_len_aux_step, if_neg (by norm_num), if_neg h2, Nat.shiftLeft_eq,
      Nat.mod_eq_of_lt (by omega), or_shiftLeft_eq_add 14 (b2 &&& 127) (by omega)]
  have e3 : read_len_aux [b3, b4, b5, b6, b7, b8, b9]
        ((b0 &&& 127) + (b1 &&& 127) * 2 ^ 7 + (b2 &&& 127) * 2 ^ 14) 21 =
      read_len_aux [b4, b5, b6, b7, b8, b9]
        ((b0 &&& 127) + (b1 &&& 127) * 2 ^ 7 + (b2 &&& 127) * 2 ^ 14 +
          (b3 &&& 127) * 2 ^ 21) 28 := by
    rw [read_len_aux_step, if_neg (by norm_num), if_neg h3, Nat.shiftLeft_eq,
      Nat.mod_eq_of_lt (by omega), or_shiftLeft_eq_add 21 (b3 &&& 127) (by omega)]
  have e4 : read_len_aux [b4, b5, b6, b7, b8, b9]
        ((b0 &&& 127) + (b1 &&& 127) * 2 ^ 7 + (b2 &&& 127) * 2 ^ 14 +
          (b3 &&& 127) * 2 ^ 21) 28 =
      read_len_aux [b5, b6, b7, b8, b9]
        ((b0 &&& 127) + (b1 &&& 127) * 2 ^ 7 + (b2 &&& 127) * 2 ^ 14 +
          (b3 &&& 127) * 2 ^ 21 + (b4 &&& 127) * 2 ^ 28) 35 := by
    rw [read_len_aux_step, if_neg (by norm_num), if_neg h4, Nat.shiftLeft_eq,
      Nat.mod_eq_of_lt (by omega), or_shiftLeft_eq_add 28 (b4 &&& 127) (by omega)]
  have e5 : read_len_aux [b5, b6, b7, b8, b9]
        ((b0 &&& 127) + (b1 &&& 127) * 2 ^ 7 + (b2 &&& 127) * 2 ^ 14 +
          (b3 &&& 127) * 2 ^ 21 + (b4 &&& 127) * 2 ^ 28) 35 =
      read_len_aux [b6, b7, b8, b9]
        ((b0 &&& 127) + (b1 &&& 127) * 2 ^ 7 + (b2 &&& 127) * 2 ^ 14 +
          (b3 &&& 127) * 2 ^ 21 + (b4 &&& 127) * 2 ^ 28 + (b5 &&& 127) * 2 ^ 35) 42 := by
    rw [read_len_aux_step, if_neg (by norm_num), if_neg h5, Nat.shiftLeft_eq,
      Nat.mod_eq_of_lt (by omega), or_shiftLeft_eq_add 35 (b5 &&& 127) (by omega)]
  have e6 : read_len_aux [b6, b7, b8, b9]
        ((b0 &&& 127) + (b1 &&& 127) * 2 ^ 7 + (b2 &&& 127) * 2 ^ 14 +
          (b3 &&& 127) * 2 ^ 21 + (b4 &&& 127) * 2 ^ 28 + (b5 &&& 127) * 2 ^ 35) 42 =
      read_len_aux [b7, b8, b9]
        ((b0 &&& 127) + (b1 &&& 127) * 2 ^ 7 + (b2 &&& 127) * 2 ^ 14 +
          (b3 &&& 127) * 2 ^ 21 + (b4 &&& 127) * 2 ^ 28 + (b5 &&& 127) * 2 ^ 35 +
          (b6 &&& 127) * 2 ^ 42) 49 := by
    rw [read_len_aux_step, if_neg (by norm_num), if_neg h6, Nat.shiftLeft_eq,
      Nat.mod_eq_of_lt (by omega), or_shiftLeft_eq_add 42 (b6 &&& 127) (by omega)]
  have e7 : read_len_aux [b7, b8, b9]
        ((b0 &&& 127) + (b1 &&& 127) * 2 ^ 7 + (b2 &&& 127) * 2 ^ 14 +
          (b3 &&& 127) * 2 ^ 21 + (b4 &&& 127) * 2 ^ 28 + (b5 &&& 127) * 2 ^ 35 +
          (b6 &&& 127) * 2 ^ 42) 49 =
      read_len_aux [b8, b9]
        ((b0 &&& 127) + (b1 &&& 127) * 2 ^ 7 + (b2 &&& 127) * 2 ^ 14 +
          (b3 &&& 127) * 2 ^ 21 + (b4 &&& 127) * 2 ^ 28 + (b5 &&& 127) * 2 ^ 35 +
          (b6 &&& 127) * 2 ^ 42 + (b7 &&& 127) * 2 ^ 49) 56 := by
    rw [read_len_aux_step, if_neg (by norm_num), if_neg h7, Nat.shiftLeft_eq,
      Nat.mod_eq_of_lt (by omega), or_shiftLeft_eq_add 49 (b7 &&& 127) (by omega)]
  have e8 : read_len_aux [b8, b9]
        ((b0 &&& 127) + (b1 &&& 127) * 2 ^ 7 + (b2 &&& 127) * 2 ^ 14 +
          (b3 &&& 127) * 2 ^ 21 + (b4 &&& 127) * 2 ^ 28 + (b5 &&& 127) * 2 ^ 35 +
          (b6 &&& 127) * 2 ^ 42 + (b7 &&& 127) * 2 ^ 49) 56 =
      read_len_aux [b9]
        ((b0 &&& 127) + (b1 &&& 127) * 2 ^ 7 + (b2 &&& 127) * 2 ^ 14 +
          (b3 &&& 127) * 2 ^ 21 + (b4 &&& 127) * 2 ^ 28 + (b5 &&& 127) * 2 ^ 35 +
          (b6 &&& 127) * 2 ^ 42 + (b7 &&& 127) * 2 ^ 49 + (b8 &&& 127) * 2 ^ 56) 63 := by
    rw [read_len_aux_step, if_neg (by norm_num), if_neg h8, Nat.shiftLeft_eq,
      Nat.mod_eq_of_lt (by omega), or_shiftLeft_eq_add 56 (b8 &&& 127) (by omega)]
  have e9 : read_len_aux [b9]
        ((b0 &&& 127) + (b1 &&& 127) * 2 ^ 7 + (b2 &&& 127) * 2 ^ 14 +
          (b3 &&& 127) * 2 ^ 21 + (b4 &&& 127) * 2 ^ 28 + (b5 &&& 127) * 2 ^ 35 +
          (b6 &&& 127) * 2 ^ 42 + (b7 &&& 127) * 2 ^ 49 + (b8 &&& 127) * 2 ^ 56) 63 =
      .ok ((b0 &&& 127) + (b1 &&& 127) * 2 ^ 7 + (b2 &&& 127) * 2 ^ 14 +
          (b3 &&& 127) * 2 ^ 21 + (b4 &&& 127) * 2 ^ 28 + (b5 &&& 127) * 2 ^ 35 +
          (b6 &&& 127) * 2 ^ 42 + (b7 &&& 127) * 2 ^ 49 + (b8 &&& 127) * 2 ^ 56 +
          (b9 &&& 1) * 2 ^ 63, []) := by
    rw [read_len_aux_step, if_neg (by norm_num), if_pos h9]
    have hlast : ((b9 &&& 127) <<< 63) % 2 ^ 64 = (b9 &&& 1) * 2 ^ 63 := by
      rw [Nat.shiftLeft_eq, and_127_eq_mod, Nat.and_one_is_mod]
      omega
    rw [hlast, or_shiftLeft_eq_add 63 (b9 &&& 1) (by omega)]
  show read_len_aux [b0, b1, b2, b3, b4, b5, b6, b7, b8, b9] 0 0 = _
  rw [e0, e1, e2, e3, e4, e5, e6, e7, e8, e9]

theorem C9_varint_overlong_witness :
    (255 : Nat) &&& 128 ≠ 0 ∧ (0x7F : Nat) &&& 128 = 0 ∧
      read_len [255, 255, 255, 255, 255, 255, 255, 255, 255, 0x7F] =
        .ok ((255 &&& 127) + (255 &&& 127) * 2 ^ 7 + (255 &&& 127) * 2 ^ 14 +
          (255 &&& 127) * 2 ^ 21 + (255 &&& 127) * 2 ^ 28 + (255 &&& 127) * 2 ^ 35 +
          (255 &&& 127) * 2 ^ 42 + (255 &&& 127) * 2 ^ 49 + (255 &&& 127) * 2 ^ 56 +
          (0x7F &&& 1) * 2 ^ 63, []) :=
  ⟨by decide, by decide,
    (C9_varint_overlong 255 255 255 255 255 255 255 255 255 0x7F
      (by decide) (by decide) (by decide) (by decide) (by decide) (by decide)
      (by decide) (by decide) (by decide) (by decide)).1⟩

end Echolite

namespace Echolite

/-- Claim C6: `read_query` rejects malformed frames.  Whenever the four fields
decode, an empty column list with a non-empty value list yields the
`InvalidValuesLength` error, a value count that is no multiple of the column
count yields the `InvalidValuesLength` error, and any `Query` actually
returned satisfies the shape invariant. -/
theorem C6_read_query_shape (s s1 s2 s3 s4 : List Nat) (cols : List Column)
    (vals : List Value) (ra d : Nat)
    (hc : read_columns s = .ok (cols, s1))
    (hv : read_values s1 = .ok (vals, s2))
    (hr : read_len s2 = .ok (ra, s3))
    (hd : read_len s3 = .ok (d, s4)) :
    (cols = [] → vals ≠ [] →
      read_query s = .error (.InvalidValuesLength vals.length 0)) ∧
    (vals ≠ [] → vals.length % cols.length ≠ 0 →
      read_query s = .error (.InvalidValuesLength vals.length cols.length)) ∧
    (∀ q s', read_query s = .ok (q, s') →
      (q.columns = [] → q.values = []) ∧
      (q.values ≠ [] → q.values.length % q.columns.length = 0)) := by
  have hrq : read_query s =
      (if cols.isEmpty ∧ ¬vals.isEmpty then
        Except.error (Error.InvalidValuesLength vals.length 0)
      else if ¬vals.isEmpty ∧ vals.length % cols.length ≠ 0 then
        Except.error (Error.InvalidValuesLength vals.length cols.length)
      else Except.ok (⟨cols, vals, ra, d⟩, s4)) := by
    unfold read_query
    rw [hc]
    show (match read_values s1 with
      | Except.error e => (Except.error e : Except Error (Query × List Nat))
      | Except.ok (values, s) =>
        match read_len s with
        | Except.error e => Except.error e
        | Except.ok (rows_affected, s) =>
          match read_len s with
          | Except.error e => Except.error e
          | Except.ok (duration, s) =>
            if cols.isEmpty ∧ ¬values.isEmpty then
              Except.error (Error.InvalidValuesLength values.length 0)
            else if ¬values.isEmpty ∧ values.length % cols.length ≠ 0 then
              Except.error (Error.InvalidValuesLength values.length cols.length)
            else Except.ok (⟨cols, values, rows_affected, duration⟩, s)) = _
    rw [hv]
    show (match read_len s2 with
      | Except.error e => (Except.error e : Except Error (Query × List Nat))
      | Except.ok (rows_affected, s) =>
        match read_len s with
        | Except.error e => Except.error e
        | Except.ok (duration, s) =>
          if cols.isEmpty ∧ ¬vals.isEmpty then
            Except.error (Error.InvalidValuesLength vals.length 0)
          else if ¬vals.isEmpty ∧ vals.length % cols.length ≠ 0 then
            Except.error (Error.InvalidValuesLength vals.length cols.length)
          else Except.ok (⟨cols, vals, rows_affected, duration⟩, s)) = _
    rw [hr]
    show (match read_len s3 with
      | Except.error e => (Except.error e : Except Error (Query × List Nat))
      | Except.ok (duration, s) =>
        if cols.isEmpty ∧ ¬vals.isEmpty then
          Except.error (Error.InvalidValuesLength vals.length 0)
        else if ¬vals.isEmpty ∧ vals.length % cols.length ≠ 0 then
          Except.error (Error.InvalidValuesLength vals.length cols.length)
        else Except.ok (⟨cols, vals, ra, duration⟩, s)) = _
    rw [hd]
  refine ⟨?_, ?_, ?_⟩
  · intro hce hvne
    rw [hrq, if_pos ⟨by simp [hce], by simp [hvne]⟩]
  · intro hvne hmod
    rw [hrq]
    by_cases hce : cols = []
    · rw [if_pos ⟨by simp [hce], by simp [hvne]⟩]
      subst hce
      rfl
    · rw [if_neg (by simp [hce]), if_pos ⟨by simp [hvne], hmod⟩]
  · intro q s' hq
    rw [hrq] at hq
    by_cases hcond1 : cols.isEmpty ∧ ¬vals.isEmpty
    · rw [if_pos hcond1] at hq
      exact absurd hq (by simp)
    · rw [if_neg hcond1] at hq
      by_cases hcond2 : ¬vals.isEmpty ∧ vals.length % cols.length ≠ 0
      · rw [if_pos hcond2] at hq
        exact absurd hq (by simp)
      · rw [if_neg hcond2] at hq
        have hqq : q = ⟨cols, vals, ra, d⟩ := by
          cases hq
          rfl
        subst hqq
        constructor
        · intro hce
          by_contra hvne
          exact hcond1 ⟨by simp_all, by simp_all⟩
        · intro hvne
          by_contra hmod
          exact hcond2 ⟨by simp_all, hmod⟩

theorem C6_read_query_shape_witness :
    read_query [0, 1, 0, 0, 0] = .error (.InvalidValuesLength 1 0) :=
  (C6_read_query_shape [0, 1, 0, 0, 0] [1, 0, 0, 0] [0, 0] [0] [] []
    [.Null] 0 0 rfl rfl rfl rfl).1 rfl (by simp)

end Echolite

namespace Echolite

/-- Claim C7: in the session's `SimpleQuery` arm, a successful backend query
makes the server emit exactly the bytes of one `Ok` status frame immediately
followed by exactly one `Query` frame (parsing the emitted stream returns the
`Ok` status and leaves precisely a well-formed query frame, which parses back
to the query with nothing left over); a failed backend query makes it emit
exactly one `Err` status frame carrying the message, with no `Query` frame
after it. -/
theorem C7_simple_query_frames (result : Except (List Nat) Query) :
    (∀ q, result = .ok q → Query.wf q = true →
      handle_simple_query result = write_status .Ok ++ write_query q ∧
      read_status (handle_simple_query result) = .ok (.Ok, write_query q) ∧
      read_query (write_query q) = .ok (q, [])) ∧
    (∀ e, result = .error e → string_wf e = true →
      handle_simple_query result = write_status (.Err e) ∧
      read_status (handle_simple_query result) = .ok (.Err e, [])) := by
  constructor
  · intro q hres hwf
    subst hres
    refine ⟨rfl, read_status_write_status_ok (write_query q), ?_⟩
    have hrt := read_query_write_query q [] hwf
    rw [List.append_nil] at hrt
    exact hrt
  · intro e hres hwf
    subst hres
    have hrt := read_status_write_status_err e [] hwf
    rw [List.append_nil] at hrt
    exact ⟨rfl, hrt⟩

theorem C7_simple_query_frames_witness :
    Query.wf ⟨[], [], 3, 4⟩ = true ∧
      read_status (handle_simple_query (.ok ⟨[], [], 3, 4⟩)) =
        .ok (.Ok, write_query ⟨[], [], 3, 4⟩) ∧
      read_query (write_query ⟨[], [], 3, 4⟩) = .ok (⟨[], [], 3, 4⟩, []) :=
  ⟨by decide,
    ((C7_simple_query_frames (.ok ⟨[], [], 3, 4⟩)).1 ⟨[], [], 3, 4⟩ rfl (by decide)).2.1,
    ((C7_simple_query_frames (.ok ⟨[], [], 3, 4⟩)).1 ⟨[], [], 3, 4⟩ rfl (by decide)).2.2⟩

/-- Claim C4 (refuted by the code): `Password::verify` compares the recomputed
hash against the client's with the standard array equality
(`server_password == client_password`), whose element-wise comparison stops at
the first mismatching byte.  The number of byte comparisons — the running time
— therefore depends on the compared values: a mismatch in the first byte costs
1 comparison, a mismatch in the last costs 32.  The comparison is not
constant-time. -/
theorem C4_password_compare_timing :
    (array_eq_steps (List.replicate 32 0) (1 :: List.replicate 31 0)).2 = 1 ∧
    (array_eq_steps (List.replicate 32 0) (List.replicate 31 0 ++ [1])).2 = 32 ∧
    (array_eq_steps (List.replicate 32 0) (1 :: List.replicate 31 0)).1 = false ∧
    (array_eq_steps (List.replicate 32 0) (List.replicate 31 0 ++ [1])).1 = false := by
  decide

end Echolite
